import Mathlib

/-!
Shallow embedding of the checkers game server (src/server.js): the rules
engine (getValidMoves, getAllValidMoves, applyMove), the session state
(room objects with players, gameState and rematchVotes), the room registry
and the socket-handler logic for makeMove, joinRoom, createRoom and
processRematchVote, followed by theorems checking the specification's
claims against these definitions.
-/

namespace Checkers

/-- An 8×8 board. Cell values follow the source's numeric encoding:
0 empty, 1 player-1 man, 2 player-2 man, 3 player-1 king, 4 player-2 king. -/
abbrev Board := List (List Nat)

/-- Read a cell; out-of-range reads default to 0 (empty). -/
def getCell (b : Board) (r c : Nat) : Nat := (b.getD r []).getD c 0

/-- Write a cell (no-op outside the stored rows/columns, as List.set). -/
def setCell (b : Board) (r c v : Nat) : Board := b.set r ((b.getD r []).set c v)

/-- A move exactly as built by the source: origin, destination and the
optional captured cell. -/
structure Move where
  from' : Nat × Nat
  to' : Nat × Nat
  captured : Option (Nat × Nat)
deriving DecidableEq

/-- The per-room game state: board, currentTurn, winner, mustJumpFrom,
mirroring createGameState's fields. -/
structure GameState where
  board : Board
  currentTurn : Nat
  winner : Option Nat
  mustJumpFrom : Option (Nat × Nat)
deriving DecidableEq

/-- createInitialBoard: rows 0-2 hold player-2 men and rows 5-7 player-1 men
on the (row+col) odd squares. -/
def createInitialBoard : Board :=
  (List.range 8).map (fun row => (List.range 8).map (fun col =>
    if row < 3 ∧ (row + col) % 2 = 1 then 2
    else if 5 ≤ row ∧ (row + col) % 2 = 1 then 1
    else 0))

/-- createGameState: fresh board, player 1 to move, no winner, no forced jump. -/
def createGameState : GameState :=
  { board := createInitialBoard, currentTurn := 1, winner := none, mustJumpFrom := none }

/-- The isEnemy test used in getValidMoves. -/
def isEnemyOf (player target : Nat) : Bool :=
  target != 0 && ((player == 1 && (target == 2 || target == 4)) ||
                  (player == 2 && (target == 1 || target == 3)))

/-- The direction list built in getValidMoves: player 1 and kings look up the
board, player 2 and kings look down, in the source's push order. -/
def dirsFor (player : Nat) (isKing : Bool) : List (Int × Int) :=
  (if player = 1 ∨ isKing then [(-1, -1), (-1, 1)] else []) ++
  (if player = 2 ∨ isKing then [(1, -1), (1, 1)] else [])

/-- The `jumps` accumulator of getValidMoves' direction loop: for each
direction whose adjacent square is in bounds and holds an enemy, a jump is
recorded when the square beyond is in bounds and empty. -/
def scanJumps (b : Board) (row col player : Nat) :
    List (Int × Int) → List Move
  | [] => []
  | (dr, dc) :: rest =>
    if (row : Int) + dr < 0 ∨ 7 < (row : Int) + dr ∨
       (col : Int) + dc < 0 ∨ 7 < (col : Int) + dc then
      scanJumps b row col player rest
    else if isEnemyOf player (getCell b ((row : Int) + dr).toNat ((col : Int) + dc).toNat) then
      if 0 ≤ (row : Int) + 2 * dr ∧ (row : Int) + 2 * dr ≤ 7 ∧
         0 ≤ (col : Int) + 2 * dc ∧ (col : Int) + 2 * dc ≤ 7 ∧
         getCell b ((row : Int) + 2 * dr).toNat ((col : Int) + 2 * dc).toNat = 0 then
        ⟨(row, col), (((row : Int) + 2 * dr).toNat, ((col : Int) + 2 * dc).toNat),
           some (((row : Int) + dr).toNat, ((col : Int) + dc).toNat)⟩ ::
          scanJumps b row col player rest
      else scanJumps b row col player rest
    else scanJumps b row col player rest

/-- The `moves` accumulator of getValidMoves' direction loop: a simple move
onto an in-bounds empty adjacent square, recorded only when no forced
continuation is pending. -/
def scanMoves (b : Board) (row col player : Nat) (mjf : Option (Nat × Nat)) :
    List (Int × Int) → List Move
  | [] => []
  | (dr, dc) :: rest =>
    if (row : Int) + dr < 0 ∨ 7 < (row : Int) + dr ∨
       (col : Int) + dc < 0 ∨ 7 < (col : Int) + dc then
      scanMoves b row col player mjf rest
    else if isEnemyOf player (getCell b ((row : Int) + dr).toNat ((col : Int) + dc).toNat) then
      scanMoves b row col player mjf rest
    else if getCell b ((row : Int) + dr).toNat ((col : Int) + dc).toNat = 0 ∧ mjf = none then
      ⟨(row, col), (((row : Int) + dr).toNat, ((col : Int) + dc).toNat), none⟩ ::
        scanMoves b row col player mjf rest
    else scanMoves b row col player mjf rest

/-- getValidMoves: legal moves of the piece at (row, col). A forced jump
restricts the result to jumps of the forced piece; otherwise jumps take
precedence over simple moves. -/
def getValidMoves (b : Board) (row col : Nat) (mjf : Option (Nat × Nat)) : List Move :=
  let piece := getCell b row col
  if piece = 0 then []
  else
    let player := if piece = 1 ∨ piece = 3 then 1 else 2
    let isKing : Bool := piece == 3 || piece == 4
    let jumps := scanJumps b row col player (dirsFor player isKing)
    let moves := scanMoves b row col player mjf (dirsFor player isKing)
    match mjf with
    | some p => if p.1 = row ∧ p.2 = col then jumps else []
    | none => if 0 < jumps.length then jumps else moves

/-- The `all` accumulator of getAllValidMoves: the union of getValidMoves
over every square holding a piece of the given player. -/
def allMovesUnion (b : Board) (player : Nat) (mjf : Option (Nat × Nat)) : List Move :=
  ((List.range 8).map (fun r => ((List.range 8).map (fun c =>
    if getCell b r c = 0 then []
    else if (if getCell b r c = 1 ∨ getCell b r c = 3 then 1 else 2) = player then
      getValidMoves b r c mjf
    else [])).flatten)).flatten

/-- getAllValidMoves: all moves of a player, restricted to jumps whenever any
jump is available (mandatory capture). -/
def getAllValidMoves (b : Board) (player : Nat) (mjf : Option (Nat × Nat)) : List Move :=
  let all := allMovesUnion b player mjf
  let jumps := all.filter (fun m => m.captured.isSome)
  if jumps.length ≠ 0 then jumps else all

/-- The promotion step of applyMove: a player-1 man reaching row 0 becomes 3,
a player-2 man reaching row 7 becomes 4. -/
def promote (piece tr : Nat) : Nat :=
  if piece = 1 ∧ tr = 0 then 3 else if piece = 2 ∧ tr = 7 then 4 else piece

/-- The turn flip `currentTurn === 1 ? 2 : 1` of the source. -/
def otherPlayer (p : Nat) : Nat := if p = 1 then 2 else 1

/-- The board mutation of applyMove: empty the origin, empty the captured
cell when present, then place the (possibly promoted) moving piece on the
destination. -/
def boardAfterMove (b : Board) (move : Move) : Board :=
  let b1 := setCell b move.from'.1 move.from'.2 0
  let b2 := match move.captured with
    | some p => setCell b1 p.1 p.2 0
    | none => b1
  setCell b2 move.to'.1 move.to'.2 (promote (getCell b move.from'.1 move.from'.2) move.to'.1)

/-- applyMove: perform the board mutation, keep the turn with a forced
continuation when the move captured, the piece did not promote and the piece
can jump again from the destination, otherwise pass the turn and clear the
continuation; finally declare the opponent winner when the new turn owner
has no moves. -/
def applyMove (gs : GameState) (move : Move) : GameState :=
  let piece := getCell gs.board move.from'.1 move.from'.2
  let newPiece := promote piece move.to'.1
  let b3 := boardAfterMove gs.board move
  let mjf : Option (Nat × Nat) :=
    if move.captured.isSome ∧ newPiece = piece then
      if 0 < ((getValidMoves b3 move.to'.1 move.to'.2 (some (move.to'.1, move.to'.2))).filter
          (fun m => m.captured.isSome)).length then some (move.to'.1, move.to'.2)
      else none
    else none
  let newTurn := match mjf with
    | none => otherPlayer gs.currentTurn
    | some _ => gs.currentTurn
  let newWinner :=
    if (getAllValidMoves b3 newTurn mjf).length = 0 then some (otherPlayer newTurn)
    else gs.winner
  { board := b3, currentTurn := newTurn, winner := newWinner, mustJumpFrom := mjf }

/-- A room object: players (socket ids), gameState and the rematch vote set
(modelled as a duplicate-free list in insertion order). -/
structure Room where
  players : List String
  gameState : Option GameState
  rematchVotes : List String
deriving DecidableEq

/-- Set.add of the rematch vote set: append the id unless already present. -/
def addVote (votes : List String) (sid : String) : List String :=
  if sid ∈ votes then votes else votes ++ [sid]

/-- processRematchVote: add the voter; once the vote set reaches two, replace
gameState with a fresh createGameState and clear the votes in the same step. -/
def processRematchVote (rm : Room) (sid : String) : Room :=
  let votes := addVote rm.rematchVotes sid
  if 2 ≤ votes.length then { rm with gameState := some createGameState, rematchVotes := [] }
  else { rm with rematchVotes := votes }

/-- The makeMove socket handler: silently ignore the move when the room or
game state is missing, a winner is set or it is not the sender's turn; emit
invalidMove (no state change) when no legal move shares the submitted origin
and destination; otherwise apply the submitted move object. -/
def makeMove (room : Option Room) (playerIndex : Nat) (mv : Move) : Option Room :=
  match room with
  | none => none
  | some rm =>
    match rm.gameState with
    | none => some rm
    | some gs =>
      if gs.winner.isSome ∨ gs.currentTurn ≠ playerIndex then some rm
      else if (getAllValidMoves gs.board playerIndex gs.mustJumpFrom).any
          (fun m => m.from' == mv.from' && m.to' == mv.to') then
        some { rm with gameState := some (applyMove gs mv) }
      else some rm

/-- The rooms object: a map from room id to Room, modelled as an association
list where insertion overwrites the key, as JavaScript object assignment does. -/
abbrev Registry := List (String × Room)

/-- `rooms[roomId]` lookup. -/
def lookupRoom (reg : Registry) (roomId : String) : Option Room :=
  (reg.find? (fun p => p.1 == roomId)).map (fun p => p.2)

/-- `rooms[roomId] = rm` assignment: overwrites any existing entry. -/
def insertRoom (reg : Registry) (roomId : String) (rm : Room) : Registry :=
  (reg.filter (fun p => p.1 != roomId)) ++ [(roomId, rm)]

/-- createRoom: registers a one-player room under the generated id,
unconditionally assigning into the rooms object. -/
def createRoom (reg : Registry) (roomId sid : String) : Registry :=
  insertRoom reg roomId { players := [sid], gameState := none, rematchVotes := [] }

/-- joinRoom: error when the id is unknown or the room already has two
players (registry untouched); otherwise push the joiner and initialize a
fresh game state. -/
def joinRoom (reg : Registry) (roomId sid : String) : Except String Room × Registry :=
  match lookupRoom reg roomId with
  | none => (Except.error "Room not found", reg)
  | some rm =>
    if 2 ≤ rm.players.length then (Except.error "Room is full", reg)
    else
      let rm' : Room := { players := rm.players ++ [sid], gameState := some createGameState,
                          rematchVotes := rm.rematchVotes }
      (Except.ok rm', insertRoom reg roomId rm')

/-- Number of cells of the board holding the value v. -/
def countCells (b : Board) (v : Nat) : Nat :=
  (b.map (fun row => (row.filter (fun x => x == v)).length)).sum

/-- The board is a true 8×8 grid. -/
def boardWF (b : Board) : Prop := b.length = 8 ∧ ∀ row ∈ b, row.length = 8

instance (b : Board) : Decidable (boardWF b) := by
  unfold boardWF
  infer_instance

/-- No two registry entries share a room id. -/
def uniqueKeys (reg : Registry) : Prop := (reg.map Prod.fst).Nodup

instance (reg : Registry) : Decidable (uniqueKeys reg) := by
  unfold uniqueKeys
  infer_instance

/-! ### Concrete positions and sessions used as test inputs -/

/-- A board with a player-1 man on (5,2) and a player-2 man on (4,3): the
man can jump to (3,4) capturing (4,3). -/
def jumpBoard : Board :=
  [[0, 0, 0, 0, 0, 0, 0, 0],
   [0, 0, 0, 0, 0, 0, 0, 0],
   [0, 0, 0, 0, 0, 0, 0, 0],
   [0, 0, 0, 0, 0, 0, 0, 0],
   [0, 0, 0, 2, 0, 0, 0, 0],
   [0, 0, 1, 0, 0, 0, 0, 0],
   [0, 0, 0, 0, 0, 0, 0, 0],
   [0, 0, 0, 0, 0, 0, 0, 0]]

/-- A board with a player-1 man on (2,1) and player-2 men on (1,2) and (1,4):
jumping (2,1) → (0,3) over (1,2) promotes the man, and the new king would
have a further jump over (1,4) into (2,5). -/
def promoBoard : Board :=
  [[0, 0, 0, 0, 0, 0, 0, 0],
   [0, 0, 2, 0, 2, 0, 0, 0],
   [0, 1, 0, 0, 0, 0, 0, 0],
   [0, 0, 0, 0, 0, 0, 0, 0],
   [0, 0, 0, 0, 0, 0, 0, 0],
   [0, 0, 0, 0, 0, 0, 0, 0],
   [0, 0, 0, 0, 0, 0, 0, 0],
   [0, 0, 0, 0, 0, 0, 0, 0]]

/-- A board where player 2's only piece (1,2) can be captured by the
player-1 man on (2,1) jumping to (0,3). -/
def lastPieceBoard : Board :=
  [[0, 0, 0, 0, 0, 0, 0, 0],
   [0, 0, 2, 0, 0, 0, 0, 0],
   [0, 1, 0, 0, 0, 0, 0, 0],
   [0, 0, 0, 0, 0, 0, 0, 0],
   [0, 0, 0, 0, 0, 0, 0, 0],
   [0, 0, 0, 0, 0, 0, 0, 0],
   [0, 0, 0, 0, 0, 0, 0, 0],
   [0, 0, 0, 0, 0, 0, 0, 0]]

/-- The capture (2,1) → (0,3) over (1,2). -/
def promoMove : Move := ⟨(2, 1), (0, 3), some (1, 2)⟩

/-- A fresh two-player room at the start position. -/
def roomStart : Room := ⟨["a", "b"], some createGameState, []⟩

/-- A submitted move object sharing origin and destination with the legal
simple move (5,0) → (4,1) of the start position, but carrying a bogus
captured field pointing at the player-2 man on (2,1). -/
def bogusMove : Move := ⟨(5, 0), (4, 1), some (2, 1)⟩

/-- A finished game: player 1 has won on jumpBoard. -/
def finishedRoom : Room := ⟨["a", "b"], some ⟨jumpBoard, 2, some 1, none⟩, ["a"]⟩

/-! ### Board read/write lemmas -/

theorem getD_eq_get_of_lt (l : List (List Nat)) (i : Nat) (h : i < l.length) :
    l.getD i [] = l[i] := by
  rw [List.getD_eq_getElem?_getD, List.getElem?_eq_getElem h]; rfl

theorem getCell_setCell_ne (b : Board) (r c r' c' v : Nat) (h : (r, c) ≠ (r', c')) :
    getCell (setCell b r' c' v) r c = getCell b r c := by
  unfold getCell setCell
  simp only [List.getD_eq_getElem?_getD]
  by_cases hr : r = r'
  · subst hr
    have hc : c ≠ c' := fun hcc => h (by rw [hcc])
    by_cases hlen : r < b.length
    · rw [List.getElem?_set_eq_of_lt _ hlen]
      simp only [Option.getD_some]
      rw [List.getElem?_set_ne (fun hcc => hc hcc.symm)]
    · rw [List.set_eq_of_length_le (Nat.le_of_not_lt hlen)]
  · rw [List.getElem?_set_ne (fun hrr => hr hrr.symm)]

theorem getCell_setCell_self (b : Board) (r c v : Nat) (hw : boardWF b)
    (hr : r ≤ 7) (hc : c ≤ 7) : getCell (setCell b r c v) r c = v := by
  obtain ⟨hlen, hrows⟩ := hw
  have hrl : r < b.length := by omega
  have hrowmem : b[r] ∈ b := List.getElem_mem hrl
  have hrow8 : (b.getD r []).length = 8 := by
    rw [getD_eq_get_of_lt b r hrl]; exact hrows _ hrowmem
  have hcl : c < (b.getD r []).length := by omega
  unfold getCell setCell
  rw [List.getD_eq_getElem?_getD (b.set r _), List.getElem?_set_eq_of_lt _ hrl]
  simp only [Option.getD_some]
  rw [List.getD_eq_getElem?_getD, List.getElem?_set_eq_of_lt _ hcl]
  rfl

theorem boardWF_setCell (b : Board) (r c v : Nat) (hw : boardWF b) :
    boardWF (setCell b r c v) := by
  obtain ⟨hlen, hrows⟩ := hw
  refine ⟨by simpa [setCell] using hlen, ?_⟩
  intro row hrow
  unfold setCell at hrow
  rcases List.mem_or_eq_of_mem_set hrow with hmem | heq
  · exact hrows row hmem
  · subst heq
    rw [List.length_set]
    by_cases hrl : r < b.length
    · rw [getD_eq_get_of_lt b r hrl]; exact hrows _ (List.getElem_mem hrl)
    · have hb : b.set r ((b.getD r []).set c v) = b :=
        List.set_eq_of_length_le (Nat.le_of_not_lt hrl)
      rw [hb] at hrow
      have h8 := hrows _ hrow
      rw [List.length_set] at h8
      exact h8

theorem getCell_setCell_zero (b : Board) (r c : Nat) :
    getCell (setCell b r c 0) r c = 0 := by
  unfold getCell setCell
  by_cases hrl : r < b.length
  · rw [List.getD_eq_getElem?_getD (b.set r _), List.getElem?_set_eq_of_lt _ hrl]
    simp only [Option.getD_some]
    by_cases hcl : c < (b.getD r []).length
    · rw [List.getD_eq_getElem?_getD, List.getElem?_set_eq_of_lt _ hcl]; rfl
    · rw [List.set_eq_of_length_le (Nat.le_of_not_lt hcl)]
      rw [List.getD_eq_getElem?_getD, List.getElem?_eq_none (Nat.le_of_not_lt hcl)]; rfl
  · rw [List.set_eq_of_length_le (Nat.le_of_not_lt hrl),
      List.getD_eq_getElem?_getD b r, List.getElem?_eq_none (Nat.le_of_not_lt hrl)]
    simp [List.getD]

/-! ### Membership properties of the move generators -/

theorem scanJumps_mem (b : Board) (row col player : Nat) (dirs : List (Int × Int)) (m : Move)
    (hm : m ∈ scanJumps b row col player dirs) :
    m.from' = (row, col) ∧ m.to'.1 ≤ 7 ∧ m.to'.2 ≤ 7 ∧
    getCell b m.to'.1 m.to'.2 = 0 ∧
    ∃ p, m.captured = some p ∧ p.1 ≤ 7 ∧ p.2 ≤ 7 := by
  induction dirs with
  | nil => simp [scanJumps] at hm
  | cons d rest ih =>
    obtain ⟨dr, dc⟩ := d
    rw [scanJumps] at hm
    split at hm
    · exact ih hm
    · split at hm
      · split at hm
        · rename_i hbound henemy hjump
          rcases List.mem_cons.mp hm with heq | hm'
          · subst heq
            obtain ⟨hj1, hj2, hj3, hj4, hj5⟩ := hjump
            push_neg at hbound
            refine ⟨rfl, ?_, ?_, hj5, _, rfl, ?_, ?_⟩
            · show ((row : Int) + 2 * dr).toNat ≤ 7
              omega
            · show ((col : Int) + 2 * dc).toNat ≤ 7
              omega
            · show ((row : Int) + dr).toNat ≤ 7
              omega
            · show ((col : Int) + dc).toNat ≤ 7
              omega
          · exact ih hm'
        · exact ih hm
      · exact ih hm

theorem scanMoves_mem (b : Board) (row col player : Nat) (mjf : Option (Nat × Nat))
    (dirs : List (Int × Int)) (m : Move)
    (hm : m ∈ scanMoves b row col player mjf dirs) :
    m.from' = (row, col) ∧ m.to'.1 ≤ 7 ∧ m.to'.2 ≤ 7 ∧
    getCell b m.to'.1 m.to'.2 = 0 ∧ m.captured = none := by
  induction dirs with
  | nil => simp [scanMoves] at hm
  | cons d rest ih =>
    obtain ⟨dr, dc⟩ := d
    rw [scanMoves] at hm
    split at hm
    · exact ih hm
    · split at hm
      · exact ih hm
      · split at hm
        · rename_i hbound henemy hempty
          rcases List.mem_cons.mp hm with heq | hm'
          · subst heq
            push_neg at hbound
            refine ⟨rfl, ?_, ?_, hempty.1, rfl⟩
            · show ((row : Int) + dr).toNat ≤ 7
              omega
            · show ((col : Int) + dc).toNat ≤ 7
              omega
          · exact ih hm'
        · exact ih hm

theorem getValidMoves_mem (b : Board) (row col : Nat) (mjf : Option (Nat × Nat)) (m : Move)
    (hm : m ∈ getValidMoves b row col mjf) :
    m.from' = (row, col) ∧ m.to'.1 ≤ 7 ∧ m.to'.2 ≤ 7 ∧
    getCell b m.to'.1 m.to'.2 = 0 ∧
    ∀ p, m.captured = some p → p.1 ≤ 7 ∧ p.2 ≤ 7 := by
  rw [getValidMoves] at hm
  simp only at hm
  by_cases hp : getCell b row col = 0
  · rw [if_pos hp] at hm
    simp at hm
  · rw [if_neg hp] at hm
    generalize (if getCell b row col = 1 ∨ getCell b row col = 3 then 1 else 2) = player at hm
    generalize (getCell b row col == 3 || getCell b row col == 4) = isKing at hm
    cases mjf with
    | some p =>
      simp only at hm
      by_cases hpc : p.1 = row ∧ p.2 = col
      · rw [if_pos hpc] at hm
        obtain ⟨h1, h2, h3, h4, q, hq, hq1, hq2⟩ := scanJumps_mem _ _ _ _ _ _ hm
        exact ⟨h1, h2, h3, h4, fun p' hp' => by rw [hq] at hp'; cases hp'; exact ⟨hq1, hq2⟩⟩
      · rw [if_neg hpc] at hm
        simp at hm
    | none =>
      simp only at hm
      by_cases hj : 0 < (scanJumps b row col player (dirsFor player isKing)).length
      · rw [if_pos hj] at hm
        obtain ⟨h1, h2, h3, h4, q, hq, hq1, hq2⟩ := scanJumps_mem _ _ _ _ _ _ hm
        exact ⟨h1, h2, h3, h4, fun p' hp' => by rw [hq] at hp'; cases hp'; exact ⟨hq1, hq2⟩⟩
      · rw [if_neg hj] at hm
        obtain ⟨h1, h2, h3, h4, h5⟩ := scanMoves_mem _ _ _ _ _ _ _ hm
        exact ⟨h1, h2, h3, h4, fun p' hp' => by rw [h5] at hp'; cases hp'⟩

/-! ### Field lemmas for applyMove -/

theorem applyMove_board (gs : GameState) (m : Move) :
    (applyMove gs m).board = boardAfterMove gs.board m := rfl

theorem applyMove_mustJumpFrom (gs : GameState) (m : Move) :
    (applyMove gs m).mustJumpFrom =
      (if m.captured.isSome ∧
          promote (getCell gs.board m.from'.1 m.from'.2) m.to'.1 =
            getCell gs.board m.from'.1 m.from'.2 then
        if 0 < ((getValidMoves (boardAfterMove gs.board m) m.to'.1 m.to'.2
            (some (m.to'.1, m.to'.2))).filter (fun x => x.captured.isSome)).length then
          some (m.to'.1, m.to'.2)
        else none
      else none) := rfl

theorem applyMove_currentTurn (gs : GameState) (m : Move) :
    (applyMove gs m).currentTurn =
      (match (applyMove gs m).mustJumpFrom with
       | none => otherPlayer gs.currentTurn
       | some _ => gs.currentTurn) := rfl

theorem applyMove_winner (gs : GameState) (m : Move) :
    (applyMove gs m).winner =
      (if (getAllValidMoves (applyMove gs m).board (applyMove gs m).currentTurn
          (applyMove gs m).mustJumpFrom).length = 0 then
        some (otherPlayer (applyMove gs m).currentTurn)
      else gs.winner) := rfl

/-! ### Cell contents after boardAfterMove -/

theorem getCell_boardAfterMove_from (b : Board) (fr fc tr tc : Nat)
    (cap : Option (Nat × Nat)) (hne : (fr, fc) ≠ (tr, tc)) :
    getCell (boardAfterMove b ⟨(fr, fc), (tr, tc), cap⟩) fr fc = 0 := by
  unfold boardAfterMove
  cases cap with
  | none =>
    simp only
    rw [getCell_setCell_ne _ _ _ _ _ _ hne]
    exact getCell_setCell_zero _ _ _
  | some p =>
    simp only
    rw [getCell_setCell_ne _ _ _ _ _ _ hne]
    by_cases hp : (fr, fc) = (p.1, p.2)
    · have hfr : fr = p.1 := congrArg Prod.fst hp
      have hfc : fc = p.2 := congrArg Prod.snd hp
      rw [hfr, hfc]
      exact getCell_setCell_zero _ _ _
    · rw [getCell_setCell_ne _ _ _ _ _ _ hp]
      exact getCell_setCell_zero _ _ _

theorem getCell_boardAfterMove_captured (b : Board) (fr fc tr tc cr cc : Nat)
    (hne : (cr, cc) ≠ (tr, tc)) :
    getCell (boardAfterMove b ⟨(fr, fc), (tr, tc), some (cr, cc)⟩) cr cc = 0 := by
  unfold boardAfterMove
  simp only
  rw [getCell_setCell_ne _ _ _ _ _ _ hne]
  exact getCell_setCell_zero _ _ _

theorem getCell_boardAfterMove_to (b : Board) (fr fc tr tc : Nat)
    (cap : Option (Nat × Nat)) (hw : boardWF b) (htr : tr ≤ 7) (htc : tc ≤ 7) :
    getCell (boardAfterMove b ⟨(fr, fc), (tr, tc), cap⟩) tr tc =
      promote (getCell b fr fc) tr := by
  unfold boardAfterMove
  cases cap with
  | none =>
    simp only
    exact getCell_setCell_self _ _ _ _ (boardWF_setCell _ _ _ _ hw) htr htc
  | some p =>
    simp only
    exact getCell_setCell_self _ _ _ _
      (boardWF_setCell _ _ _ _ (boardWF_setCell _ _ _ _ hw)) htr htc

theorem getCell_boardAfterMove_other (b : Board) (fr fc tr tc r c : Nat)
    (cap : Option (Nat × Nat)) (h1 : (r, c) ≠ (fr, fc)) (h2 : (r, c) ≠ (tr, tc))
    (h3 : ∀ p, cap = some p → (r, c) ≠ p) :
    getCell (boardAfterMove b ⟨(fr, fc), (tr, tc), cap⟩) r c = getCell b r c := by
  unfold boardAfterMove
  cases cap with
  | none =>
    simp only
    rw [getCell_setCell_ne _ _ _ _ _ _ h2, getCell_setCell_ne _ _ _ _ _ _ h1]
  | some p =>
    simp only
    have hp : (r, c) ≠ (p.1, p.2) := fun hh => h3 p rfl hh
    rw [getCell_setCell_ne _ _ _ _ _ _ h2, getCell_setCell_ne _ _ _ _ _ _ hp,
      getCell_setCell_ne _ _ _ _ _ _ h1]

/-! ## Claim theorems -/

/-- C1: whenever any capture is available to the player anywhere on the
board (some member of the union of per-piece move sets has its captured
field set), every move returned by getAllValidMoves has its captured field
set; hence the returned set contains a non-capturing move only if it
contains no capturing move. -/
theorem getAllValidMoves_mandatory_capture (b : Board) (player : Nat)
    (mjf : Option (Nat × Nat)) :
    (∀ m₁ ∈ getAllValidMoves b player mjf, m₁.captured = none →
      ∀ m₂ ∈ getAllValidMoves b player mjf, m₂.captured = none) ∧
    ((∃ m ∈ allMovesUnion b player mjf, m.captured.isSome) →
      ∀ m' ∈ getAllValidMoves b player mjf, m'.captured.isSome) := by
  have hres : ∀ m ∈ getAllValidMoves b player mjf,
      m ∈ (allMovesUnion b player mjf).filter (fun x => x.captured.isSome) ∨
      ((((allMovesUnion b player mjf).filter (fun x => x.captured.isSome)).length = 0) ∧
        m ∈ allMovesUnion b player mjf) := by
    intro m hm
    rw [getAllValidMoves] at hm
    by_cases hj : ((allMovesUnion b player mjf).filter (fun x => x.captured.isSome)).length ≠ 0
    · rw [if_pos hj] at hm
      exact Or.inl hm
    · rw [if_neg hj] at hm
      exact Or.inr ⟨not_not.mp hj, hm⟩
  constructor
  · intro m₁ h₁ hc₁ m₂ h₂
    rcases hres m₁ h₁ with hf₁ | ⟨hlen, _⟩
    · have := (List.mem_filter.mp hf₁).2
      rw [hc₁] at this
      simp at this
    · rcases hres m₂ h₂ with hf₂ | ⟨_, hall₂⟩
      · rw [List.length_eq_zero] at hlen
        rw [hlen] at hf₂
        simp at hf₂
      · by_contra hne
        have hs : m₂.captured.isSome := Option.ne_none_iff_isSome.mp hne
        have hmem : m₂ ∈ (allMovesUnion b player mjf).filter (fun x => x.captured.isSome) :=
          List.mem_filter.mpr ⟨hall₂, hs⟩
        rw [List.length_eq_zero] at hlen
        rw [hlen] at hmem
        simp at hmem
  · rintro ⟨m, hm, hc⟩ m' h'
    rcases hres m' h' with hf | ⟨hlen, _⟩
    · exact (List.mem_filter.mp hf).2
    · have hmf : m ∈ (allMovesUnion b player mjf).filter (fun x => x.captured.isSome) :=
        List.mem_filter.mpr ⟨hm, hc⟩
      rw [List.length_eq_zero] at hlen
      rw [hlen] at hmf
      simp at hmf

/-- C1 witness: on jumpBoard a capture is available to player 1 and every
returned move is a capture. -/
theorem getAllValidMoves_mandatory_capture_witness :
    (∃ m ∈ allMovesUnion jumpBoard 1 none, m.captured.isSome) ∧
    ∀ m' ∈ getAllValidMoves jumpBoard 1 none, m'.captured.isSome :=
  ⟨by decide, (getAllValidMoves_mandatory_capture jumpBoard 1 none).2 (by decide)⟩

/-- C2 counterexample: bogusMove is not a member of the legal move set of
the start position (every legal move there has captured = none), yet the
makeMove handler does not leave the room unchanged: the claim's fourth
no-op condition fails on the code. -/
theorem makeMove_nonmember_changes_state :
    bogusMove ∉ getAllValidMoves createGameState.board 1 createGameState.mustJumpFrom ∧
    makeMove (some roomStart) 1 bogusMove ≠ some roomStart := by
  constructor
  · decide
  · decide

/-- C2 (amended): the makeMove handler leaves the state unchanged when the
room is missing, the room has no game state, a winner is already set, the
sender is not the turn owner, or no legal move shares the submitted move's
origin and destination — the handler checks membership by origin and
destination only, not full membership of the submitted move object. -/
theorem makeMove_noop_cases (rm : Room) (pi : Nat) (mv : Move) :
    makeMove none pi mv = none ∧
    (rm.gameState = none → makeMove (some rm) pi mv = some rm) ∧
    (∀ gs, rm.gameState = some gs → gs.winner.isSome → makeMove (some rm) pi mv = some rm) ∧
    (∀ gs, rm.gameState = some gs → gs.currentTurn ≠ pi →
      makeMove (some rm) pi mv = some rm) ∧
    (∀ gs, rm.gameState = some gs →
      (∀ m ∈ getAllValidMoves gs.board pi gs.mustJumpFrom,
        ¬(m.from' = mv.from' ∧ m.to' = mv.to')) →
      makeMove (some rm) pi mv = some rm) := by
  refine ⟨rfl, ?_, ?_, ?_, ?_⟩
  · intro h
    simp only [makeMove, h]
  · intro gs hgs hw
    simp only [makeMove, hgs]
    rw [if_pos (Or.inl hw)]
  · intro gs hgs ht
    simp only [makeMove, hgs]
    rw [if_pos (Or.inr ht)]
  · intro gs hgs hnm
    simp only [makeMove, hgs]
    by_cases hc : gs.winner.isSome = true ∨ gs.currentTurn ≠ pi
    · rw [if_pos hc]
    · rw [if_neg hc]
      have hany : ¬((getAllValidMoves gs.board pi gs.mustJumpFrom).any
          (fun m => m.from' == mv.from' && m.to' == mv.to') = true) := by
        rw [List.any_eq_true]
        rintro ⟨m, hmem, hp⟩
        rw [Bool.and_eq_true, beq_iff_eq, beq_iff_eq] at hp
        exact hnm m hmem hp
      rw [if_neg hany]

/-- C2 witness: the no-op cases at concrete inputs — missing room, missing
game state, finished game, wrong turn owner, and a move matching no legal
origin/destination. -/
theorem makeMove_noop_cases_witness :
    makeMove none 1 promoMove = none ∧
    makeMove (some ⟨["a"], none, []⟩) 1 promoMove = some ⟨["a"], none, []⟩ ∧
    makeMove (some finishedRoom) 2 promoMove = some finishedRoom ∧
    makeMove (some roomStart) 2 promoMove = some roomStart ∧
    makeMove (some roomStart) 1 ⟨(0, 0), (0, 0), none⟩ = some roomStart :=
  ⟨(makeMove_noop_cases ⟨["a"], none, []⟩ 1 promoMove).1,
   (makeMove_noop_cases ⟨["a"], none, []⟩ 1 promoMove).2.1 rfl,
   (makeMove_noop_cases finishedRoom 2 promoMove).2.2.1 _ rfl (by decide),
   (makeMove_noop_cases roomStart 2 promoMove).2.2.2.1 _ rfl (by decide),
   (makeMove_noop_cases roomStart 1 ⟨(0, 0), (0, 0), none⟩).2.2.2.2 _ rfl (by decide)⟩

/-- C3 counterexample: on promoBoard the capture (2,1) → (0,3) is legal and
promotes the man to a king; the new king has a further capture from (0,3),
yet applyMove clears the forced continuation and passes the turn — the
"including when it just promoted to king" part of the claim fails. -/
theorem applyMove_promotion_ends_chain :
    promoMove ∈ getAllValidMoves promoBoard 1 none ∧
    getCell (applyMove ⟨promoBoard, 1, none, none⟩ promoMove).board 0 3 = 3 ∧
    ((getValidMoves (applyMove ⟨promoBoard, 1, none, none⟩ promoMove).board 0 3
        (some (0, 3))).filter (fun m => m.captured.isSome)).length ≠ 0 ∧
    (applyMove ⟨promoBoard, 1, none, none⟩ promoMove).mustJumpFrom = none ∧
    (applyMove ⟨promoBoard, 1, none, none⟩ promoMove).currentTurn = 2 := by
  refine ⟨by decide, by decide, by decide, by decide, by decide⟩

/-- C3 (amended): for a capture from an in-bounds origin to a distinct
in-bounds destination (also distinct from the captured cell), applyMove
empties the origin and the captured cell and places the moving piece —
promoted when it reaches the far rank — on the destination; when the piece
did not promote and has a further capture from the destination the turn is
kept and the forced continuation is set to the destination; otherwise —
including whenever the piece just promoted — the turn passes and the
continuation is cleared. -/
theorem applyMove_capture_spec (gs : GameState) (fr fc tr tc cr cc : Nat)
    (hw : boardWF gs.board) (htr : tr ≤ 7) (htc : tc ≤ 7)
    (hne1 : (fr, fc) ≠ (tr, tc)) (hne2 : (cr, cc) ≠ (tr, tc)) :
    getCell (applyMove gs ⟨(fr, fc), (tr, tc), some (cr, cc)⟩).board fr fc = 0 ∧
    getCell (applyMove gs ⟨(fr, fc), (tr, tc), some (cr, cc)⟩).board cr cc = 0 ∧
    getCell (applyMove gs ⟨(fr, fc), (tr, tc), some (cr, cc)⟩).board tr tc =
      promote (getCell gs.board fr fc) tr ∧
    (promote (getCell gs.board fr fc) tr = getCell gs.board fr fc ∧
      0 < ((getValidMoves (applyMove gs ⟨(fr, fc), (tr, tc), some (cr, cc)⟩).board tr tc
          (some (tr, tc))).filter (fun m => m.captured.isSome)).length →
      (applyMove gs ⟨(fr, fc), (tr, tc), some (cr, cc)⟩).mustJumpFrom = some (tr, tc) ∧
      (applyMove gs ⟨(fr, fc), (tr, tc), some (cr, cc)⟩).currentTurn = gs.currentTurn) ∧
    (promote (getCell gs.board fr fc) tr ≠ getCell gs.board fr fc ∨
      ((getValidMoves (applyMove gs ⟨(fr, fc), (tr, tc), some (cr, cc)⟩).board tr tc
          (some (tr, tc))).filter (fun m => m.captured.isSome)).length = 0 →
      (applyMove gs ⟨(fr, fc), (tr, tc), some (cr, cc)⟩).mustJumpFrom = none ∧
      (applyMove gs ⟨(fr, fc), (tr, tc), some (cr, cc)⟩).currentTurn =
        otherPlayer gs.currentTurn) := by
  refine ⟨?_, ?_, ?_, ?_, ?_⟩
  · rw [applyMove_board]
    exact getCell_boardAfterMove_from gs.board fr fc tr tc _ hne1
  · rw [applyMove_board]
    exact getCell_boardAfterMove_captured gs.board fr fc tr tc cr cc hne2
  · rw [applyMove_board]
    exact getCell_boardAfterMove_to gs.board fr fc tr tc _ hw htr htc
  · rintro ⟨hpr, hlen⟩
    rw [applyMove_board] at hlen
    have hmjf : (applyMove gs ⟨(fr, fc), (tr, tc), some (cr, cc)⟩).mustJumpFrom =
        some (tr, tc) := by
      rw [applyMove_mustJumpFrom]
      rw [if_pos ⟨rfl, hpr⟩, if_pos hlen]
    refine ⟨hmjf, ?_⟩
    rw [applyMove_currentTurn, hmjf]
  · intro h
    have hmjf : (applyMove gs ⟨(fr, fc), (tr, tc), some (cr, cc)⟩).mustJumpFrom = none := by
      rw [applyMove_mustJumpFrom]
      rcases h with hpr | hlen
      · rw [if_neg (fun hc => hpr hc.2)]
      · rw [applyMove_board] at hlen
        by_cases hpr : promote (getCell gs.board fr fc) tr = getCell gs.board fr fc
        · rw [if_pos ⟨rfl, hpr⟩, if_neg (fun hlt => by
            have hlt' : 0 < ((getValidMoves (boardAfterMove gs.board
                ⟨(fr, fc), (tr, tc), some (cr, cc)⟩) tr tc
                (some (tr, tc))).filter (fun m => m.captured.isSome)).length := hlt
            omega)]
        · rw [if_neg (fun hc => hpr hc.2)]
    refine ⟨hmjf, ?_⟩
    rw [applyMove_currentTurn, hmjf]

/-- C3 witness: the amended behaviour at the concrete capture
(5,2) → (3,4) over (4,3) on jumpBoard. -/
theorem applyMove_capture_spec_witness :
    boardWF jumpBoard ∧
    (getCell (applyMove ⟨jumpBoard, 1, none, none⟩ ⟨(5, 2), (3, 4), some (4, 3)⟩).board 5 2 = 0 ∧
     getCell (applyMove ⟨jumpBoard, 1, none, none⟩ ⟨(5, 2), (3, 4), some (4, 3)⟩).board 4 3 = 0 ∧
     getCell (applyMove ⟨jumpBoard, 1, none, none⟩ ⟨(5, 2), (3, 4), some (4, 3)⟩).board 3 4 =
       promote (getCell jumpBoard 5 2) 3 ∧
     (promote (getCell jumpBoard 5 2) 3 = getCell jumpBoard 5 2 ∧
       0 < ((getValidMoves (applyMove ⟨jumpBoard, 1, none, none⟩
           ⟨(5, 2), (3, 4), some (4, 3)⟩).board 3 4
           (some (3, 4))).filter (fun m => m.captured.isSome)).length →
       (applyMove ⟨jumpBoard, 1, none, none⟩ ⟨(5, 2), (3, 4), some (4, 3)⟩).mustJumpFrom =
         some (3, 4) ∧
       (applyMove ⟨jumpBoard, 1, none, none⟩ ⟨(5, 2), (3, 4), some (4, 3)⟩).currentTurn = 1) ∧
     (promote (getCell jumpBoard 5 2) 3 ≠ getCell jumpBoard 5 2 ∨
       ((getValidMoves (applyMove ⟨jumpBoard, 1, none, none⟩
           ⟨(5, 2), (3, 4), some (4, 3)⟩).board 3 4
           (some (3, 4))).filter (fun m => m.captured.isSome)).length = 0 →
       (applyMove ⟨jumpBoard, 1, none, none⟩ ⟨(5, 2), (3, 4), some (4, 3)⟩).mustJumpFrom =
         none ∧
       (applyMove ⟨jumpBoard, 1, none, none⟩ ⟨(5, 2), (3, 4), some (4, 3)⟩).currentTurn =
         otherPlayer 1)) :=
  ⟨by decide,
   applyMove_capture_spec ⟨jumpBoard, 1, none, none⟩ 5 2 3 4 4 3
     (by decide) (by decide) (by decide) (by decide) (by decide)⟩

/-- C4: after applyMove, if the player to move in the resulting state has no
legal moves, the winner is the other player; and once a winner is set the
makeMove handler never changes the room. -/
theorem applyMove_win_detection (gs : GameState) (m : Move) (rm : Room)
    (pi : Nat) (mv : Move) :
    (getAllValidMoves (applyMove gs m).board (applyMove gs m).currentTurn
        (applyMove gs m).mustJumpFrom = [] →
      (applyMove gs m).winner = some (otherPlayer (applyMove gs m).currentTurn)) ∧
    (∀ g, rm.gameState = some g → g.winner.isSome → makeMove (some rm) pi mv = some rm) := by
  constructor
  · intro h
    rw [applyMove_winner, if_pos (by rw [h]; rfl)]
  · intro g hg hwin
    simp only [makeMove, hg]
    rw [if_pos (Or.inl hwin)]

/-- C4 witness: capturing player 2's last piece on lastPieceBoard leaves
player 2 without moves and sets the winner to player 1; a finished room
ignores further moves. -/
theorem applyMove_win_detection_witness :
    getAllValidMoves (applyMove ⟨lastPieceBoard, 1, none, none⟩ promoMove).board
      (applyMove ⟨lastPieceBoard, 1, none, none⟩ promoMove).currentTurn
      (applyMove ⟨lastPieceBoard, 1, none, none⟩ promoMove).mustJumpFrom = [] ∧
    (applyMove ⟨lastPieceBoard, 1, none, none⟩ promoMove).winner =
      some (otherPlayer (applyMove ⟨lastPieceBoard, 1, none, none⟩ promoMove).currentTurn) ∧
    makeMove (some finishedRoom) 1 promoMove = some finishedRoom :=
  ⟨by decide,
   (applyMove_win_detection ⟨lastPieceBoard, 1, none, none⟩ promoMove finishedRoom 1
     promoMove).1 (by decide),
   (applyMove_win_detection ⟨lastPieceBoard, 1, none, none⟩ promoMove finishedRoom 1
     promoMove).2 _ rfl (by decide)⟩

/-- C5: when the rematch vote set reaches two participants the game state is
replaced by a fresh createGameState — the canonical start layout with 12 men
per side, no kings, player 1 to move, no winner and no forced continuation —
and the vote set is emptied, in one and the same transition of
processRematchVote. -/
theorem processRematchVote_reset (rm : Room) (sid : String)
    (h : 2 ≤ (addVote rm.rematchVotes sid).length) :
    processRematchVote rm sid =
      { rm with gameState := some createGameState, rematchVotes := [] } ∧
    countCells createInitialBoard 1 = 12 ∧ countCells createInitialBoard 2 = 12 ∧
    countCells createInitialBoard 3 = 0 ∧ countCells createInitialBoard 4 = 0 ∧
    createGameState.board = createInitialBoard ∧ createGameState.currentTurn = 1 ∧
    createGameState.winner = none ∧ createGameState.mustJumpFrom = none := by
  refine ⟨?_, by decide, by decide, by decide, by decide, rfl, rfl, rfl, rfl⟩
  simp only [processRematchVote]
  rw [if_pos h]

/-- C5 witness: the second vote on finishedRoom resets the game state and
clears the votes. -/
theorem processRematchVote_reset_witness :
    2 ≤ (addVote finishedRoom.rematchVotes "b").length ∧
    processRematchVote finishedRoom "b" =
      { finishedRoom with gameState := some createGameState, rematchVotes := [] } :=
  ⟨by decide, (processRematchVote_reset finishedRoom "b" (by decide)).1⟩

/-- C6 counterexample: creating a room whose generated token collides with
an existing open room does not retry — the existing room (players p1) is
overwritten by the new one (players p2) and is gone from the registry. -/
theorem createRoom_collision_overwrites :
    createRoom [("ABC", ⟨["p1"], none, []⟩)] "ABC" "p2" =
      [("ABC", ⟨["p2"], none, []⟩)] := by decide

/-- C6 (amended): no two registry entries ever share a token, because the
registry is a map keyed by token and insertion overwrites; but createRoom
performs no collision retry — it unconditionally replaces any existing open
room registered under the generated token. -/
theorem createRoom_unique_keys (reg : Registry) (roomId sid : String)
    (h : uniqueKeys reg) :
    uniqueKeys (createRoom reg roomId sid) ∧
    lookupRoom (createRoom reg roomId sid) roomId = some ⟨[sid], none, []⟩ := by
  constructor
  · unfold uniqueKeys createRoom insertRoom
    rw [List.map_append]
    apply List.Nodup.append
    · exact h.sublist ((List.filter_sublist reg).map Prod.fst)
    · exact List.nodup_singleton _
    · intro a ha hb
      rw [List.map_singleton, List.mem_singleton] at hb
      subst hb
      obtain ⟨p, hp, hpa⟩ := List.mem_map.mp ha
      have hne := (List.mem_filter.mp hp).2
      rw [bne_iff_ne] at hne
      exact hne hpa
  · unfold lookupRoom createRoom insertRoom
    rw [List.find?_append]
    have hnone : (reg.filter (fun p => p.1 != roomId)).find?
        (fun p => p.1 == roomId) = none := by
      rw [List.find?_eq_none]
      intro p hp
      have h2 := (List.mem_filter.mp hp).2
      rw [bne_iff_ne] at h2
      simp only [beq_iff_eq]
      exact h2
    rw [hnone]
    simp

/-- C6 witness: the overwrite-and-uniqueness behaviour at a registry that
already holds the colliding token. -/
theorem createRoom_unique_keys_witness :
    uniqueKeys [("ABC", (⟨["p1"], none, []⟩ : Room))] ∧
    uniqueKeys (createRoom [("ABC", ⟨["p1"], none, []⟩)] "ABC" "p2") ∧
    lookupRoom (createRoom [("ABC", ⟨["p1"], none, []⟩)] "ABC" "p2") "ABC" =
      some ⟨["p2"], none, []⟩ :=
  ⟨by decide,
   (createRoom_unique_keys [("ABC", ⟨["p1"], none, []⟩)] "ABC" "p2" (by decide)).1,
   (createRoom_unique_keys [("ABC", ⟨["p1"], none, []⟩)] "ABC" "p2" (by decide)).2⟩

/-- C7 evidence: processRematchVote registers the vote even though the game
in roomStart is still in progress (winner = none), so the vote is not the
claimed no-op while the outcome is in-progress. -/
theorem processRematchVote_accepts_vote_in_progress :
    (∃ gs, roomStart.gameState = some gs ∧ gs.winner = none) ∧
    processRematchVote roomStart "a" = { roomStart with rematchVotes := ["a"] } ∧
    processRematchVote roomStart "a" ≠ roomStart := by
  refine ⟨⟨createGameState, rfl, rfl⟩, by decide, by decide⟩

/-- C8: every move produced by getValidMoves starts at the scanned square,
ends on an in-bounds empty destination, captures only in-bounds cells, and
applying it with applyMove leaves every cell other than the origin, the
captured cell and the destination unchanged — so all writes stay inside the
8×8 board and the destination held no piece before the move. -/
theorem getValidMoves_safe (gs : GameState) (row col : Nat)
    (mjf : Option (Nat × Nat)) (m : Move)
    (hm : m ∈ getValidMoves gs.board row col mjf) :
    m.from' = (row, col) ∧ m.to'.1 ≤ 7 ∧ m.to'.2 ≤ 7 ∧
    getCell gs.board m.to'.1 m.to'.2 = 0 ∧
    (∀ p, m.captured = some p → p.1 ≤ 7 ∧ p.2 ≤ 7) ∧
    (∀ r c : Nat, (r, c) ≠ m.from' → (r, c) ≠ m.to' →
      (∀ p, m.captured = some p → (r, c) ≠ p) →
      getCell (applyMove gs m).board r c = getCell gs.board r c) := by
  obtain ⟨h1, h2, h3, h4, h5⟩ := getValidMoves_mem gs.board row col mjf m hm
  refine ⟨h1, h2, h3, h4, h5, ?_⟩
  intro r c hr ht hc
  rw [applyMove_board]
  obtain ⟨⟨fr, fc⟩, ⟨tr, tc⟩, cap⟩ := m
  exact getCell_boardAfterMove_other gs.board fr fc tr tc r c cap hr ht hc

/-- C8 witness: the jump (5,2) → (3,4) over (4,3) on jumpBoard. -/
theorem getValidMoves_safe_witness :
    (⟨(5, 2), (3, 4), some (4, 3)⟩ : Move) ∈ getValidMoves jumpBoard 5 2 none ∧
    (((5, 2) : Nat × Nat) = (5, 2) ∧ (3 : Nat) ≤ 7 ∧ (4 : Nat) ≤ 7 ∧
     getCell jumpBoard 3 4 = 0 ∧
     (∀ p : Nat × Nat, some ((4, 3) : Nat × Nat) = some p → p.1 ≤ 7 ∧ p.2 ≤ 7) ∧
     (∀ r c : Nat, (r, c) ≠ ((5, 2) : Nat × Nat) → (r, c) ≠ ((3, 4) : Nat × Nat) →
       (∀ p : Nat × Nat, some ((4, 3) : Nat × Nat) = some p → (r, c) ≠ p) →
       getCell (applyMove ⟨jumpBoard, 1, none, none⟩
         ⟨(5, 2), (3, 4), some (4, 3)⟩).board r c = getCell jumpBoard r c)) :=
  ⟨by decide,
   getValidMoves_safe ⟨jumpBoard, 1, none, none⟩ 5 2 none
     ⟨(5, 2), (3, 4), some (4, 3)⟩ (by decide)⟩

/-- C9: joinRoom fails with "Room not found" on an unknown token and with
"Room is full" when the room already holds two players, leaving the registry
unchanged in both cases; on success it appends the joiner as slot 2 and
initializes a fresh game state (the session is then active). -/
theorem joinRoom_spec (reg : Registry) (roomId sid : String) :
    (lookupRoom reg roomId = none →
      joinRoom reg roomId sid = (Except.error "Room not found", reg)) ∧
    (∀ rm, lookupRoom reg roomId = some rm → 2 ≤ rm.players.length →
      joinRoom reg roomId sid = (Except.error "Room is full", reg)) ∧
    (∀ rm, lookupRoom reg roomId = some rm → rm.players.length < 2 →
      joinRoom reg roomId sid =
        (Except.ok ⟨rm.players ++ [sid], some createGameState, rm.rematchVotes⟩,
         insertRoom reg roomId
           ⟨rm.players ++ [sid], some createGameState, rm.rematchVotes⟩)) := by
  refine ⟨?_, ?_, ?_⟩
  · intro h
    rw [joinRoom, h]
  · intro rm h hfull
    rw [joinRoom, h]
    simp only
    rw [if_pos hfull]
  · intro rm h hlt
    rw [joinRoom, h]
    simp only
    rw [if_neg (by omega)]

/-- C9 witness: the three joinRoom outcomes at concrete registries. -/
theorem joinRoom_spec_witness :
    joinRoom [] "T" "b" = (Except.error "Room not found", []) ∧
    joinRoom [("T", ⟨["a", "b"], none, []⟩)] "T" "c" =
      (Except.error "Room is full", [("T", ⟨["a", "b"], none, []⟩)]) ∧
    joinRoom [("T", ⟨["a"], none, []⟩)] "T" "b" =
      (Except.ok ⟨["a", "b"], some createGameState, []⟩,
       insertRoom [("T", ⟨["a"], none, []⟩)] "T"
         ⟨["a", "b"], some createGameState, []⟩) :=
  ⟨(joinRoom_spec [] "T" "b").1 (by decide),
   (joinRoom_spec [("T", ⟨["a", "b"], none, []⟩)] "T" "c").2.1
     ⟨["a", "b"], none, []⟩ (by decide) (by decide),
   (joinRoom_spec [("T", ⟨["a"], none, []⟩)] "T" "b").2.2
     ⟨["a"], none, []⟩ (by decide) (by decide)⟩

/-- C10 evidence: on the start position the handler accepts bogusMove
because it shares origin and destination with the legal non-capturing move
(5,0) → (4,1), and applyMove then empties the client-chosen cell (2,1) —
which held a player-2 man — although the matching legal move captures
nothing: the client-supplied captured field changes the applied transition. -/
theorem makeMove_trusts_client_captured :
    (⟨(5, 0), (4, 1), none⟩ : Move) ∈ getAllValidMoves createGameState.board 1 none ∧
    (∀ m ∈ getAllValidMoves createGameState.board 1 none, m.captured = none) ∧
    getCell createGameState.board 2 1 = 2 ∧
    makeMove (some roomStart) 1 bogusMove =
      some ⟨["a", "b"], some (applyMove createGameState bogusMove), []⟩ ∧
    getCell (applyMove createGameState bogusMove).board 2 1 = 0 := by
  refine ⟨by decide, by decide, by decide, by decide, by decide⟩

end Checkers
